import Mathlib

/-!
Verification of the Sofive weekly-poll bot (`bot.py`) against its
natural-language specification.

The bot keeps an in-memory dictionary `poll_data` mapping a poll id to the
chat id, message id and current count of "+" votes, plus a job queue with
two one-shot jobs per poll (named `close_{id}` and `forward_{id}`).  We
embed the registry as an association list with Python-dict semantics, the
job queue as a list of (kind, poll id) pairs, and each handler as a pure
function from the bot state to the new state together with the list of
observable collaborator calls (send / stop / forward / log).  Telegram API
calls that can raise are given an explicit success flag; a raised
exception aborts the rest of the handler body exactly where the `await`
sits in the source.
-/

namespace Sofive

/-- Poll ids are opaque identifiers assigned by Telegram; we model them as
naturals. -/
abbrev PollId := Nat

/-- One entry of the `poll_data` dictionary: `{"chat_id": ..,
"message_id": .., "plus_votes": ..}` (bot.py line 90). -/
structure PollEntry where
  chat_id : Int
  message_id : Nat
  plus_votes : Nat
deriving Repr, DecidableEq

/-- Kinds of one-shot jobs the bot schedules: `close_{poll_id}` and
`forward_{poll_id}` (bot.py lines 96 and 100). -/
inductive JobKind
  | close
  | forward
deriving Repr, DecidableEq

/-- A scheduled one-shot job, identified by its name `kind_{poll_id}`. -/
structure Job where
  kind : JobKind
  poll_id : PollId
deriving Repr, DecidableEq

/-- Observable effects of a handler: collaborator calls and log lines.
`saveStore` is the Durable Store `save` operation of the specification,
included in the observation vocabulary so persistence claims can be
stated; the source never performs it. -/
inductive Effect
  | sendPoll (chat_id : Int)
  | stopPoll (chat_id : Int) (message_id : Nat)
  | forwardMessage (to_chat : Int) (from_chat : Int) (message_id : Nat)
  | saveStore
  | logInfo
  | logWarning
  | logError
deriving Repr, DecidableEq

/-- Registry: the `poll_data` dictionary, as an association list with
unique keys maintained by `setPoll`/`delPoll`. -/
abbrev Registry := List (PollId × PollEntry)

/-- Dictionary lookup `poll_data[poll_id]` (as an `Option`). -/
def lookupPoll : Registry → PollId → Option PollEntry
  | [], _ => none
  | (k, v) :: rest, id => if k = id then some v else lookupPoll rest id

/-- Membership test `poll_id in poll_data`. -/
def memPoll (d : Registry) (id : PollId) : Bool :=
  (lookupPoll d id).isSome

/-- Dictionary assignment `poll_data[poll_id] = entry`. -/
def setPoll : Registry → PollId → PollEntry → Registry
  | [], id, e => [(id, e)]
  | (k, v) :: rest, id, e =>
      if k = id then (id, e) :: rest else (k, v) :: setPoll rest id e

/-- Dictionary deletion `del poll_data[poll_id]`. -/
def delPoll (d : Registry) (id : PollId) : Registry :=
  d.filter (fun kv => !(decide (kv.1 = id)))

/-- The mutable state the handlers touch: the `poll_data` dictionary and
the job queue's pending one-shot jobs. -/
structure BotState where
  poll_data : Registry
  jobs : List Job
deriving Repr, DecidableEq

/-- `get_jobs_by_name(f"close_{id}") + get_jobs_by_name(f"forward_{id}")`
followed by `schedule_removal()` on each (bot.py lines 134-136). -/
def cancelJobs (jobs : List Job) (id : PollId) : List Job :=
  jobs.filter (fun j =>
    !(decide (j = ⟨JobKind.close, id⟩) || decide (j = ⟨JobKind.forward, id⟩)))

/-- Whether a pending job named `kind_{id}` exists in the queue. -/
def hasJob (jobs : List Job) (k : JobKind) (id : PollId) : Bool :=
  jobs.any (fun j => decide (j = ⟨k, id⟩))

/-- The job queue consuming a one-shot job when it fires. -/
def removeJob (jobs : List Job) (k : JobKind) (id : PollId) : List Job :=
  jobs.filter (fun j => !(decide (j = ⟨k, id⟩)))

/-- `(6 - today.weekday() + 7) % 7`, promoted to `7` when `0`
(bot.py lines 72-73): days from today to the poll's subject Sunday. -/
def days_until_sunday (weekday : Int) : Int :=
  let d := (6 - weekday + 7) % 7
  if d = 0 then 7 else d

/-- `(5 - today.weekday() + 7) % 7`, promoted to `7` when `0`
(bot.py lines 76-77): days from today to the escalation Saturday. -/
def days_until_saturday (weekday : Int) : Int :=
  let d := (5 - weekday + 7) % 7
  if d = 0 then 7 else d

/-- `create_and_send_poll` (bot.py lines 68-102), state part: sends the
poll (Telegram assigns `poll_id` and `message_id`, here parameters),
registers the poll with `plus_votes = 0`, and schedules the close and
forward jobs. -/
def create_and_send_poll (chat_id : Int) (poll_id : PollId)
    (message_id : Nat) (s : BotState) : BotState × List Effect :=
  ({ poll_data := setPoll s.poll_data poll_id ⟨chat_id, message_id, 0⟩,
     jobs := s.jobs ++ [⟨JobKind.close, poll_id⟩, ⟨JobKind.forward, poll_id⟩] },
   [Effect.sendPoll chat_id, Effect.logInfo])

/-- `receive_poll_update` (bot.py lines 119-139). `plus_votes` is the
reported voter count of option "+"; `stopOk` tells whether the
`stop_poll` call succeeds — it is not wrapped in try/except, so on
failure the trailing `del poll_data[poll_id]` does not run. -/
def receive_poll_update (poll_id : PollId) (plus_votes : Nat)
    (stopOk : Bool) (s : BotState) : BotState × List Effect :=
  if memPoll s.poll_data poll_id then
    let d1 :=
      match lookupPoll s.poll_data poll_id with
      | some e => setPoll s.poll_data poll_id { e with plus_votes := plus_votes }
      | none => s.poll_data
    if 15 ≤ plus_votes then
      let jobs1 := cancelJobs s.jobs poll_id
      match lookupPoll d1 poll_id with
      | some e =>
          if stopOk then
            ({ poll_data := delPoll d1 poll_id, jobs := jobs1 },
             [Effect.logInfo, Effect.stopPoll e.chat_id e.message_id])
          else
            ({ poll_data := d1, jobs := jobs1 },
             [Effect.logInfo, Effect.stopPoll e.chat_id e.message_id])
      | none => ({ poll_data := d1, jobs := jobs1 }, [Effect.logInfo])
    else ({ poll_data := d1, jobs := s.jobs }, [])
  else (s, [])

/-- `auto_close_poll` (bot.py lines 141-150): the deadline-closure job
callback. `job_chat`/`job_msg` come from `job.data`; `stop_poll` is not
wrapped in try/except, so on failure the `del` does not run. -/
def auto_close_poll (job_chat : Int) (job_msg : Nat) (poll_id : PollId)
    (stopOk : Bool) (s : BotState) : BotState × List Effect :=
  if memPoll s.poll_data poll_id then
    if stopOk then
      ({ s with poll_data := delPoll s.poll_data poll_id },
       [Effect.stopPoll job_chat job_msg])
    else (s, [Effect.stopPoll job_chat job_msg])
  else (s, [])

/-- `check_and_forward_poll` (bot.py lines 44-66): the escalation job
callback. `fwd` is `FORWARD_CHAT_ID` (0 when unset); `forwardOk` tells
whether the `forward_message` call succeeds (it is wrapped in try/except,
so a failure only logs). -/
def check_and_forward_poll (fwd : Int) (job_chat : Int) (job_msg : Nat)
    (poll_id : PollId) (forwardOk : Bool) (s : BotState) :
    BotState × List Effect :=
  if memPoll s.poll_data poll_id then
    if fwd = 0 then (s, [Effect.logWarning])
    else
      let current_votes :=
        match lookupPoll s.poll_data poll_id with
        | some e => e.plus_votes
        | none => 0
      if current_votes < 15 then
        if forwardOk then
          (s, [Effect.logInfo, Effect.forwardMessage fwd job_chat job_msg])
        else
          (s, [Effect.logInfo, Effect.forwardMessage fwd job_chat job_msg,
               Effect.logError])
      else (s, [Effect.logInfo])
  else (s, [])

/-- Configuration of a single poll's lifecycle: the poll id and the
`job.data` captured at scheduling time (bot.py lines 96 and 100), plus
`FORWARD_CHAT_ID`. -/
structure TraceCfg where
  pid : PollId
  chat_id : Int
  message_id : Nat
  fwd : Int
deriving Repr, DecidableEq

/-- Events that can reach a poll's lifecycle: a poll-update from Telegram
carrying the current "+" count, or one of the two scheduled jobs firing.
Each carries the success flag of the Telegram call the handler makes. -/
inductive Event
  | voteChanged (n : Nat) (stopOk : Bool)
  | closeFired (stopOk : Bool)
  | escalationFired (forwardOk : Bool)
deriving Repr, DecidableEq

/-- An event is deliverable: updates always are; a job can fire only
while it is still pending in the queue. -/
def enabled (cfg : TraceCfg) (s : BotState) (e : Event) : Bool :=
  match e with
  | Event.voteChanged _ _ => true
  | Event.closeFired _ => hasJob s.jobs JobKind.close cfg.pid
  | Event.escalationFired _ => hasJob s.jobs JobKind.forward cfg.pid

/-- One event step: a firing job is consumed from the queue by the
scheduler, then its callback runs. -/
def stepEvent (cfg : TraceCfg) (s : BotState) (e : Event) :
    BotState × List Effect :=
  match e with
  | Event.voteChanged n ok => receive_poll_update cfg.pid n ok s
  | Event.closeFired ok =>
      auto_close_poll cfg.chat_id cfg.message_id cfg.pid ok
        { s with jobs := removeJob s.jobs JobKind.close cfg.pid }
  | Event.escalationFired fok =>
      check_and_forward_poll cfg.fwd cfg.chat_id cfg.message_id cfg.pid fok
        { s with jobs := removeJob s.jobs JobKind.forward cfg.pid }

/-- Run a sequence of events, accumulating the emitted effects. -/
def runTrace (cfg : TraceCfg) (s : BotState) :
    List Event → BotState × List Effect
  | [] => (s, [])
  | e :: es =>
      ((runTrace cfg (stepEvent cfg s e).1 es).1,
       (stepEvent cfg s e).2 ++ (runTrace cfg (stepEvent cfg s e).1 es).2)

/-- A trace is valid when every event is deliverable in the state it
reaches. -/
def validTrace (cfg : TraceCfg) (s : BotState) : List Event → Bool
  | [] => true
  | e :: es => enabled cfg s e && validTrace cfg (stepEvent cfg s e).1 es

/-- All `stop_poll` attempts in the trace succeed. -/
def stopsOk : List Event → Bool
  | [] => true
  | Event.voteChanged _ ok :: es => ok && stopsOk es
  | Event.closeFired ok :: es => ok && stopsOk es
  | Event.escalationFired _ :: es => stopsOk es

/-- The trace contains a firing of the close job. -/
def hasCloseFired : List Event → Bool
  | [] => false
  | Event.closeFired _ :: _ => true
  | _ :: es => hasCloseFired es

/-- Number of `stop_poll` collaborator calls among the effects. -/
def countStops : List Effect → Nat
  | [] => 0
  | Effect.stopPoll _ _ :: es => countStops es + 1
  | _ :: es => countStops es

/-- Number of `forward_message` collaborator calls among the effects. -/
def countForwards : List Effect → Nat
  | [] => 0
  | Effect.forwardMessage _ _ _ :: es => countForwards es + 1
  | _ :: es => countForwards es

/-- Number of Durable Store `save` operations among the effects. -/
def countSaves : List Effect → Nat
  | [] => 0
  | Effect.saveStore :: es => countSaves es + 1
  | _ :: es => countSaves es

/-- The state right after `create_and_send_poll` registered the poll into
an empty bot state: the entry with zero votes and the two pending jobs. -/
def initState (cfg : TraceCfg) : BotState :=
  (create_and_send_poll cfg.chat_id cfg.pid cfg.message_id ⟨[], []⟩).1

theorem lookupPoll_setPoll_self (d : Registry) (id : PollId) (e : PollEntry) :
    lookupPoll (setPoll d id e) id = some e := by
  induction d with
  | nil => simp [setPoll, lookupPoll]
  | cons kv rest ih =>
      obtain ⟨k, v⟩ := kv
      by_cases h : k = id <;> simp [setPoll, lookupPoll, h, ih]

theorem lookupPoll_delPoll_self (d : Registry) (id : PollId) :
    lookupPoll (delPoll d id) id = none := by
  induction d with
  | nil => rfl
  | cons kv rest ih =>
      obtain ⟨k, v⟩ := kv
      by_cases h : k = id <;> simp [delPoll, List.filter, lookupPoll, h] at ih ⊢ <;>
        simpa [delPoll] using ih

theorem memPoll_setPoll_self (d : Registry) (id : PollId) (e : PollEntry) :
    memPoll (setPoll d id e) id = true := by
  simp [memPoll, lookupPoll_setPoll_self]

theorem memPoll_delPoll_self (d : Registry) (id : PollId) :
    memPoll (delPoll d id) id = false := by
  simp [memPoll, lookupPoll_delPoll_self]

theorem hasJob_filter_false (js : List Job) (p : Job → Bool) (k : JobKind)
    (id : PollId) (hp : p ⟨k, id⟩ = false) :
    hasJob (js.filter p) k id = false := by
  induction js with
  | nil => rfl
  | cons j rest ih =>
      by_cases h : j = (⟨k, id⟩ : Job)
      · subst h
        simpa [List.filter, hp, hasJob] using ih
      · cases hpj : p j <;>
          simp [List.filter, hpj, hasJob, h] at ih ⊢ <;> simpa [hasJob] using ih

theorem hasJob_eq_true_iff (js : List Job) (k : JobKind) (id : PollId) :
    hasJob js k id = true ↔ (⟨k, id⟩ : Job) ∈ js := by
  simp [hasJob, List.any_eq_true]

theorem hasJob_filter_true (js : List Job) (p : Job → Bool) (k : JobKind)
    (id : PollId) (hp : p ⟨k, id⟩ = true) :
    hasJob (js.filter p) k id = hasJob js k id := by
  cases hj : hasJob js k id
  · cases hjf : hasJob (js.filter p) k id
    · rfl
    · exfalso
      have hmem := List.mem_of_mem_filter ((hasJob_eq_true_iff _ _ _).mp hjf)
      have hcontra := (hasJob_eq_true_iff js k id).mpr hmem
      rw [hj] at hcontra
      cases hcontra
  · have hmem := (hasJob_eq_true_iff js k id).mp hj
    exact (hasJob_eq_true_iff _ _ _).mpr (List.mem_filter.mpr ⟨hmem, hp⟩)

theorem hasJob_cancelJobs (js : List Job) (id : PollId) (k : JobKind) :
    hasJob (cancelJobs js id) k id = false := by
  refine hasJob_filter_false js _ k id ?_
  cases k <;> simp

theorem hasJob_removeJob_self (js : List Job) (k : JobKind) (id : PollId) :
    hasJob (removeJob js k id) k id = false := by
  refine hasJob_filter_false js _ k id ?_
  simp

theorem hasJob_removeJob_other (js : List Job) (k k' : JobKind) (id : PollId)
    (h : k ≠ k') : hasJob (removeJob js k' id) k id = hasJob js k id := by
  refine hasJob_filter_true js _ k id ?_
  simp [Job.mk.injEq]
  intro hk
  exact absurd hk h

theorem countStops_append (l1 l2 : List Effect) :
    countStops (l1 ++ l2) = countStops l1 + countStops l2 := by
  induction l1 with
  | nil => simp [countStops]
  | cons e rest ih =>
      cases e
      all_goals simp [countStops, ih]
      all_goals omega

theorem receive_absent (pid : PollId) (n : Nat) (ok : Bool) (s : BotState)
    (h : memPoll s.poll_data pid = false) :
    receive_poll_update pid n ok s = (s, []) := by
  unfold receive_poll_update
  simp [h]

theorem receive_low (pid : PollId) (n : Nat) (ok : Bool) (s : BotState)
    (e : PollEntry) (hl : lookupPoll s.poll_data pid = some e) (hn : n < 15) :
    receive_poll_update pid n ok s =
      ({ poll_data := setPoll s.poll_data pid { e with plus_votes := n },
         jobs := s.jobs }, []) := by
  unfold receive_poll_update
  have hm : memPoll s.poll_data pid = true := by simp [memPoll, hl]
  simp [hm, hl, Nat.not_le.mpr hn]

theorem receive_high_ok (pid : PollId) (n : Nat) (s : BotState)
    (e : PollEntry) (hl : lookupPoll s.poll_data pid = some e) (hn : 15 ≤ n) :
    receive_poll_update pid n true s =
      ({ poll_data := delPoll (setPoll s.poll_data pid { e with plus_votes := n }) pid,
         jobs := cancelJobs s.jobs pid },
       [Effect.logInfo, Effect.stopPoll e.chat_id e.message_id]) := by
  unfold receive_poll_update
  have hm : memPoll s.poll_data pid = true := by simp [memPoll, hl]
  simp [hm, hl, hn, lookupPoll_setPoll_self]

theorem receive_high_fail (pid : PollId) (n : Nat) (s : BotState)
    (e : PollEntry) (hl : lookupPoll s.poll_data pid = some e) (hn : 15 ≤ n) :
    receive_poll_update pid n false s =
      ({ poll_data := setPoll s.poll_data pid { e with plus_votes := n },
         jobs := cancelJobs s.jobs pid },
       [Effect.logInfo, Effect.stopPoll e.chat_id e.message_id]) := by
  unfold receive_poll_update
  have hm : memPoll s.poll_data pid = true := by simp [memPoll, hl]
  simp [hm, hl, hn, lookupPoll_setPoll_self]

theorem auto_close_absent (jc : Int) (jm : Nat) (pid : PollId) (ok : Bool)
    (s : BotState) (h : memPoll s.poll_data pid = false) :
    auto_close_poll jc jm pid ok s = (s, []) := by
  unfold auto_close_poll
  simp [h]

theorem auto_close_present_ok (jc : Int) (jm : Nat) (pid : PollId)
    (s : BotState) (h : memPoll s.poll_data pid = true) :
    auto_close_poll jc jm pid true s =
      ({ s with poll_data := delPoll s.poll_data pid },
       [Effect.stopPoll jc jm]) := by
  unfold auto_close_poll
  simp [h]

theorem auto_close_present_fail (jc : Int) (jm : Nat) (pid : PollId)
    (s : BotState) (h : memPoll s.poll_data pid = true) :
    auto_close_poll jc jm pid false s = (s, [Effect.stopPoll jc jm]) := by
  unfold auto_close_poll
  simp [h]

theorem check_and_forward_state (fwd jc : Int) (jm : Nat) (pid : PollId)
    (fok : Bool) (s : BotState) :
    (check_and_forward_poll fwd jc jm pid fok s).1 = s := by
  unfold check_and_forward_poll
  split
  · split
    · rfl
    · cases hl : lookupPoll s.poll_data pid
      · dsimp only
        split
        · cases fok <;> rfl
        · rfl
      · dsimp only
        split
        · cases fok <;> rfl
        · rfl
  · rfl

theorem check_and_forward_no_stops (fwd jc : Int) (jm : Nat) (pid : PollId)
    (fok : Bool) (s : BotState) :
    countStops (check_and_forward_poll fwd jc jm pid fok s).2 = 0 := by
  unfold check_and_forward_poll
  split
  · split
    · rfl
    · cases hl : lookupPoll s.poll_data pid
      · dsimp only
        split
        · cases fok <;> rfl
        · rfl
      · dsimp only
        split
        · cases fok <;> rfl
        · rfl
  · rfl

theorem check_and_forward_low (fwd jc : Int) (jm : Nat) (pid : PollId)
    (fok : Bool) (s : BotState) (e : PollEntry)
    (hl : lookupPoll s.poll_data pid = some e) (hf : ¬fwd = 0)
    (hlt : e.plus_votes < 15) :
    check_and_forward_poll fwd jc jm pid fok s =
      (s, if fok then [Effect.logInfo, Effect.forwardMessage fwd jc jm]
          else [Effect.logInfo, Effect.forwardMessage fwd jc jm,
                Effect.logError]) := by
  unfold check_and_forward_poll
  have hm : memPoll s.poll_data pid = true := by simp [memPoll, hl]
  simp [hm, hf, hl, hlt]
  cases fok <;> rfl

theorem check_and_forward_high (fwd jc : Int) (jm : Nat) (pid : PollId)
    (fok : Bool) (s : BotState) (e : PollEntry)
    (hl : lookupPoll s.poll_data pid = some e) (hf : ¬fwd = 0)
    (hge : 15 ≤ e.plus_votes) :
    check_and_forward_poll fwd jc jm pid fok s = (s, [Effect.logInfo]) := by
  unfold check_and_forward_poll
  have hm : memPoll s.poll_data pid = true := by simp [memPoll, hl]
  simp [hm, hf, hl, Nat.not_lt.mpr hge]

theorem runTrace_cons (cfg : TraceCfg) (s : BotState) (e : Event)
    (es : List Event) :
    runTrace cfg s (e :: es) =
      ((runTrace cfg (stepEvent cfg s e).1 es).1,
       (stepEvent cfg s e).2 ++ (runTrace cfg (stepEvent cfg s e).1 es).2) :=
  rfl

theorem validTrace_cons (cfg : TraceCfg) (s : BotState) (e : Event)
    (es : List Event) :
    validTrace cfg s (e :: es) =
      (enabled cfg s e && validTrace cfg (stepEvent cfg s e).1 es) :=
  rfl

/-- Invariant of the single-poll lifecycle: while the close job is still
pending in the queue, the poll is still registered in `poll_data`. -/
def CloseJobInv (cfg : TraceCfg) (s : BotState) : Prop :=
  hasJob s.jobs JobKind.close cfg.pid = true →
    memPoll s.poll_data cfg.pid = true

/-- Main trace invariant: along any deliverable event sequence in which
every `stop_poll` attempt succeeds, the number of `stop_poll` calls is
bounded by 1 when the poll is registered (0 when it is not), and a firing
of the close job forces at least one `stop_poll` call. -/
theorem run_bound (cfg : TraceCfg) (tr : List Event) :
    ∀ s : BotState, CloseJobInv cfg s →
      validTrace cfg s tr = true → stopsOk tr = true →
      countStops (runTrace cfg s tr).2 ≤
        (if memPoll s.poll_data cfg.pid then 1 else 0) ∧
      (hasCloseFired tr = true → 1 ≤ countStops (runTrace cfg s tr).2) := by
  induction tr with
  | nil =>
      intro s _ _ _
      refine ⟨by simp [runTrace, countStops], ?_⟩
      intro h
      simp [hasCloseFired] at h
  | cons e es ih =>
      intro s hinv hv hok
      rw [validTrace_cons, Bool.and_eq_true] at hv
      obtain ⟨hen, hv'⟩ := hv
      cases e with
      | voteChanged n ok =>
          rw [stopsOk, Bool.and_eq_true] at hok
          obtain ⟨hok1, hok'⟩ := hok
          subst hok1
          cases hm : lookupPoll s.poll_data cfg.pid with
          | none =>
              have hmem : memPoll s.poll_data cfg.pid = false := by
                simp [memPoll, hm]
              have hst : stepEvent cfg s (Event.voteChanged n true) = (s, []) := by
                simpa [stepEvent] using receive_absent cfg.pid n true s hmem
              rw [hst] at hv'
              have hih := ih s hinv hv' hok'
              constructor
              · calc countStops (runTrace cfg s (Event.voteChanged n true :: es)).2
                    = countStops (runTrace cfg s es).2 := by
                      rw [runTrace_cons, hst]
                      simp [countStops_append, countStops]
                  _ ≤ _ := hih.1
              · intro hcf
                have hcf' : hasCloseFired es = true := by
                  simpa [hasCloseFired] using hcf
                calc (1 : Nat) ≤ countStops (runTrace cfg s es).2 := hih.2 hcf'
                  _ = countStops (runTrace cfg s (Event.voteChanged n true :: es)).2 := by
                      rw [runTrace_cons, hst]
                      simp [countStops_append, countStops]
          | some e' =>
              have hmem : memPoll s.poll_data cfg.pid = true := by
                simp [memPoll, hm]
              by_cases hn : 15 ≤ n
              · -- early closure: one stop_poll, entry removed, jobs cancelled
                have hst : stepEvent cfg s (Event.voteChanged n true) =
                    ({ poll_data :=
                         delPoll (setPoll s.poll_data cfg.pid
                           { e' with plus_votes := n }) cfg.pid,
                       jobs := cancelJobs s.jobs cfg.pid },
                     [Effect.logInfo,
                      Effect.stopPoll e'.chat_id e'.message_id]) := by
                  simpa [stepEvent] using receive_high_ok cfg.pid n s e' hm hn
                rw [hst] at hv'
                have hinv1 : CloseJobInv cfg
                    { poll_data :=
                        delPoll (setPoll s.poll_data cfg.pid
                          { e' with plus_votes := n }) cfg.pid,
                      jobs := cancelJobs s.jobs cfg.pid } := by
                  intro h
                  rw [show hasJob (cancelJobs s.jobs cfg.pid) JobKind.close cfg.pid
                        = false from hasJob_cancelJobs s.jobs cfg.pid JobKind.close] at h
                  cases h
                have hih := ih _ hinv1 hv' hok'
                have hc0 : countStops (runTrace cfg
                    { poll_data :=
                        delPoll (setPoll s.poll_data cfg.pid
                          { e' with plus_votes := n }) cfg.pid,
                      jobs := cancelJobs s.jobs cfg.pid } es).2 = 0 := by
                  have := hih.1
                  simp [memPoll_delPoll_self] at this
                  exact this
                have htot : countStops
                    (runTrace cfg s (Event.voteChanged n true :: es)).2 = 1 := by
                  rw [runTrace_cons, hst]
                  simp [countStops_append, countStops, hc0]
                rw [htot]
                exact ⟨by simp [hmem], fun _ => le_refl 1⟩
              · -- below threshold: update votes, no collaborator call
                have hn' : n < 15 := Nat.lt_of_not_le hn
                have hst : stepEvent cfg s (Event.voteChanged n true) =
                    ({ poll_data :=
                         setPoll s.poll_data cfg.pid { e' with plus_votes := n },
                       jobs := s.jobs }, []) := by
                  simpa [stepEvent] using receive_low cfg.pid n true s e' hm hn'
                rw [hst] at hv'
                have hinv1 : CloseJobInv cfg
                    { poll_data :=
                        setPoll s.poll_data cfg.pid { e' with plus_votes := n },
                      jobs := s.jobs } := by
                  intro _
                  exact memPoll_setPoll_self s.poll_data cfg.pid _
                have hih := ih _ hinv1 hv' hok'
                have heq : countStops
                    (runTrace cfg s (Event.voteChanged n true :: es)).2 =
                    countStops (runTrace cfg
                      { poll_data :=
                          setPoll s.poll_data cfg.pid { e' with plus_votes := n },
                        jobs := s.jobs } es).2 := by
                  rw [runTrace_cons, hst]
                  simp [countStops_append, countStops]
                constructor
                · rw [heq]
                  calc countStops _ ≤ _ := hih.1
                    _ ≤ (if memPoll s.poll_data cfg.pid then 1 else 0) := by
                      simp [hmem, memPoll_setPoll_self]
                · intro hcf
                  have hcf' : hasCloseFired es = true := by
                    simpa [hasCloseFired] using hcf
                  rw [heq]
                  exact hih.2 hcf'
      | closeFired ok =>
          rw [stopsOk, Bool.and_eq_true] at hok
          obtain ⟨hok1, hok'⟩ := hok
          subst hok1
          have hjob : hasJob s.jobs JobKind.close cfg.pid = true := by
            simpa [enabled] using hen
          have hmem : memPoll s.poll_data cfg.pid = true := hinv hjob
          have hst : stepEvent cfg s (Event.closeFired true) =
              ({ poll_data := delPoll s.poll_data cfg.pid,
                 jobs := removeJob s.jobs JobKind.close cfg.pid },
               [Effect.stopPoll cfg.chat_id cfg.message_id]) := by
            simpa [stepEvent] using
              auto_close_present_ok cfg.chat_id cfg.message_id cfg.pid
                { s with jobs := removeJob s.jobs JobKind.close cfg.pid } hmem
          rw [hst] at hv'
          have hinv1 : CloseJobInv cfg
              { poll_data := delPoll s.poll_data cfg.pid,
                jobs := removeJob s.jobs JobKind.close cfg.pid } := by
            intro h
            rw [show hasJob (removeJob s.jobs JobKind.close cfg.pid)
                  JobKind.close cfg.pid = false from
                  hasJob_removeJob_self s.jobs JobKind.close cfg.pid] at h
            cases h
          have hih := ih _ hinv1 hv' hok'
          have hc0 : countStops (runTrace cfg
              { poll_data := delPoll s.poll_data cfg.pid,
                jobs := removeJob s.jobs JobKind.close cfg.pid } es).2 = 0 := by
            have := hih.1
            simp [memPoll_delPoll_self] at this
            exact this
          have htot : countStops
              (runTrace cfg s (Event.closeFired true :: es)).2 = 1 := by
            rw [runTrace_cons, hst]
            simp [countStops_append, countStops, hc0]
          rw [htot]
          exact ⟨by simp [hmem], fun _ => le_refl 1⟩
      | escalationFired fok =>
          have hok' : stopsOk es = true := by simpa [stopsOk] using hok
          have hs1 : (stepEvent cfg s (Event.escalationFired fok)).1 =
              { s with jobs := removeJob s.jobs JobKind.forward cfg.pid } := by
            simpa [stepEvent] using
              check_and_forward_state cfg.fwd cfg.chat_id cfg.message_id
                cfg.pid fok { s with jobs := removeJob s.jobs JobKind.forward cfg.pid }
          have he0 : countStops (stepEvent cfg s (Event.escalationFired fok)).2 = 0 := by
            simpa [stepEvent] using
              check_and_forward_no_stops cfg.fwd cfg.chat_id cfg.message_id
                cfg.pid fok { s with jobs := removeJob s.jobs JobKind.forward cfg.pid }
          rw [hs1] at hv'
          have hinv1 : CloseJobInv cfg
              { s with jobs := removeJob s.jobs JobKind.forward cfg.pid } := by
            intro h
            rw [show hasJob (removeJob s.jobs JobKind.forward cfg.pid)
                  JobKind.close cfg.pid = hasJob s.jobs JobKind.close cfg.pid from
                  hasJob_removeJob_other s.jobs JobKind.close JobKind.forward
                    cfg.pid (by simp)] at h
            exact hinv h
          have hih := ih _ hinv1 hv' hok'
          have heq : countStops
              (runTrace cfg s (Event.escalationFired fok :: es)).2 =
              countStops (runTrace cfg
                { s with jobs := removeJob s.jobs JobKind.forward cfg.pid } es).2 := by
            rw [runTrace_cons, hs1, countStops_append, he0]
            simp
          constructor
          · rw [heq]
            exact hih.1
          · intro hcf
            have hcf' : hasCloseFired es = true := by
              simpa [hasCloseFired] using hcf
            rw [heq]
            exact hih.2 hcf'

/-- C5: for every invocation weekday (Python weekdays 0..6), the subject
date computed by `create_and_send_poll` is strictly in the future, and
when the current weekday equals the target weekday (Sunday = 6) the
computed occurrence is seven days out, never zero. -/
theorem subject_date_strictly_future (w : Int) (h0 : 0 ≤ w) (h6 : w ≤ 6) :
    1 ≤ days_until_sunday w ∧ (w = 6 → days_until_sunday w = 7) := by
  interval_cases w <;> exact ⟨by decide, by decide⟩

/-- Witness for C5: invoked on Sunday itself (weekday 6), the subject
date is seven days out. -/
theorem subject_date_strictly_future_witness :
    1 ≤ days_until_sunday 6 ∧ ((6 : Int) = 6 → days_until_sunday 6 = 7) :=
  subject_date_strictly_future 6 (by decide) (by decide)

/-- C6 counterexample: invoked on Saturday (weekday 5), the escalation
date is seven days out while the subject date is only one day out, so the
escalation date does not fall strictly before the subject date. -/
theorem saturday_escalation_after_subject :
    days_until_sunday 5 = 1 ∧ days_until_saturday 5 = 7 ∧
    ¬days_until_saturday 5 < days_until_sunday 5 := by
  decide

/-- C6 amended: for every invocation weekday other than the escalation
weekday itself (Saturday = 5), the escalation date computed by
`create_and_send_poll` falls strictly before the computed subject date;
on Saturday the escalation date falls after the subject date. -/
theorem escalation_before_subject_except_saturday (w : Int) (h0 : 0 ≤ w)
    (h6 : w ≤ 6) (h5 : w ≠ 5) :
    days_until_saturday w < days_until_sunday w := by
  interval_cases w
  all_goals first
    | decide
    | exact absurd rfl h5

/-- Witness for C6 amended: on Thursday (weekday 3, the spawn weekday)
the escalation Saturday precedes the subject Sunday. -/
theorem escalation_before_subject_except_saturday_witness :
    days_until_saturday 3 < days_until_sunday 3 :=
  escalation_before_subject_except_saturday 3 (by decide) (by decide)
    (by decide)

/-- C1: for every poll id registered in `poll_data`, a poll update whose
"+" count is at least 15 (the comparison is `>=`, so any count at or
above 15) performs early closure when the `stop_poll` call succeeds: both
the close job and the forward job are cancelled, the collaborator is
asked to stop the poll message, and the entry is removed from
`poll_data`. -/
theorem vote_threshold_early_closure (pid : PollId) (n : Nat) (s : BotState)
    (e : PollEntry) (hl : lookupPoll s.poll_data pid = some e)
    (hn : 15 ≤ n) :
    memPoll (receive_poll_update pid n true s).1.poll_data pid = false ∧
    hasJob (receive_poll_update pid n true s).1.jobs JobKind.close pid = false ∧
    hasJob (receive_poll_update pid n true s).1.jobs JobKind.forward pid = false ∧
    Effect.stopPoll e.chat_id e.message_id ∈
      (receive_poll_update pid n true s).2 := by
  rw [receive_high_ok pid n s e hl hn]
  exact ⟨memPoll_delPoll_self _ _, hasJob_cancelJobs _ _ _,
    hasJob_cancelJobs _ _ _, by simp⟩

/-- Witness for C1: a registered poll at id 1 with a jump straight to 20
votes (above, not equal to, 15) is closed and both jobs cancelled. -/
theorem vote_threshold_early_closure_witness :
    memPoll (receive_poll_update 1 20 true
      ⟨[(1, ⟨100, 50, 3⟩)],
       [⟨JobKind.close, 1⟩, ⟨JobKind.forward, 1⟩]⟩).1.poll_data 1 = false ∧
    hasJob (receive_poll_update 1 20 true
      ⟨[(1, ⟨100, 50, 3⟩)],
       [⟨JobKind.close, 1⟩, ⟨JobKind.forward, 1⟩]⟩).1.jobs JobKind.close 1 = false ∧
    hasJob (receive_poll_update 1 20 true
      ⟨[(1, ⟨100, 50, 3⟩)],
       [⟨JobKind.close, 1⟩, ⟨JobKind.forward, 1⟩]⟩).1.jobs JobKind.forward 1 = false ∧
    Effect.stopPoll (100 : Int) (50 : Nat) ∈
      (receive_poll_update 1 20 true
        ⟨[(1, ⟨100, 50, 3⟩)],
         [⟨JobKind.close, 1⟩, ⟨JobKind.forward, 1⟩]⟩).2 :=
  vote_threshold_early_closure 1 20
    ⟨[(1, ⟨100, 50, 3⟩)], [⟨JobKind.close, 1⟩, ⟨JobKind.forward, 1⟩]⟩
    ⟨100, 50, 3⟩ (by decide) (by decide)

/-- C3: for every poll id registered when the escalation job fires, with
the escalation destination configured: if the recorded "+" count is
strictly below 15 the handler asks the collaborator to forward the poll
message and leaves `poll_data` unchanged (the poll stays open); if the
count is 15 or more it neither forwards nor changes `poll_data`. -/
theorem escalation_below_threshold_forwards (fwd jc : Int) (jm : Nat)
    (pid : PollId) (fok : Bool) (s : BotState) (e : PollEntry)
    (hl : lookupPoll s.poll_data pid = some e) (hf : fwd ≠ 0) :
    (e.plus_votes < 15 →
      (check_and_forward_poll fwd jc jm pid fok s).1 = s ∧
      Effect.forwardMessage fwd jc jm ∈
        (check_and_forward_poll fwd jc jm pid fok s).2) ∧
    (15 ≤ e.plus_votes →
      (check_and_forward_poll fwd jc jm pid fok s).1 = s ∧
      countForwards (check_and_forward_poll fwd jc jm pid fok s).2 = 0) := by
  constructor
  · intro hlt
    rw [check_and_forward_low fwd jc jm pid fok s e hl hf hlt]
    refine ⟨rfl, ?_⟩
    cases fok <;> simp
  · intro hge
    rw [check_and_forward_high fwd jc jm pid fok s e hl hf hge]
    exact ⟨rfl, rfl⟩

/-- Witness for C3: a registered poll with 3 votes at escalation time is
forwarded and the registry is untouched. -/
theorem escalation_below_threshold_forwards_witness :
    ((3 : Nat) < 15 →
      (check_and_forward_poll 7 100 50 1 true
        ⟨[(1, ⟨100, 50, 3⟩)], [⟨JobKind.forward, 1⟩]⟩).1 =
        ⟨[(1, ⟨100, 50, 3⟩)], [⟨JobKind.forward, 1⟩]⟩ ∧
      Effect.forwardMessage 7 100 50 ∈
        (check_and_forward_poll 7 100 50 1 true
          ⟨[(1, ⟨100, 50, 3⟩)], [⟨JobKind.forward, 1⟩]⟩).2) ∧
    (15 ≤ (3 : Nat) →
      (check_and_forward_poll 7 100 50 1 true
        ⟨[(1, ⟨100, 50, 3⟩)], [⟨JobKind.forward, 1⟩]⟩).1 =
        ⟨[(1, ⟨100, 50, 3⟩)], [⟨JobKind.forward, 1⟩]⟩ ∧
      countForwards (check_and_forward_poll 7 100 50 1 true
        ⟨[(1, ⟨100, 50, 3⟩)], [⟨JobKind.forward, 1⟩]⟩).2 = 0) :=
  escalation_below_threshold_forwards 7 100 50 1 true
    ⟨[(1, ⟨100, 50, 3⟩)], [⟨JobKind.forward, 1⟩]⟩ ⟨100, 50, 3⟩
    (by decide) (by decide)

/-- C9: when the escalation job fires for a registered poll while
`FORWARD_CHAT_ID` is unset (0), the handler logs a warning and returns:
no forward is attempted and the registry is unchanged, so the poll stays
open. -/
theorem escalation_unconfigured_noop (jc : Int) (jm : Nat) (pid : PollId)
    (fok : Bool) (s : BotState) (h : memPoll s.poll_data pid = true) :
    check_and_forward_poll 0 jc jm pid fok s = (s, [Effect.logWarning]) := by
  unfold check_and_forward_poll
  simp [h]

/-- Witness for C9: concrete registered poll, unset forward destination. -/
theorem escalation_unconfigured_noop_witness :
    check_and_forward_poll 0 100 50 1 true
      ⟨[(1, ⟨100, 50, 3⟩)], [⟨JobKind.forward, 1⟩]⟩ =
      (⟨[(1, ⟨100, 50, 3⟩)], [⟨JobKind.forward, 1⟩]⟩,
       [Effect.logWarning]) :=
  escalation_unconfigured_noop 100 50 1 true
    ⟨[(1, ⟨100, 50, 3⟩)], [⟨JobKind.forward, 1⟩]⟩ (by decide)

/-- C8: on either closure path, when `stop_poll` fails, the raised
exception skips the trailing `del`, so the registry entry is kept: the
early-closure path attempts the stop but retains the entry, and the
deadline path attempts the stop and leaves the whole state unchanged, so
a later vote event or the other task can retry the close. -/
theorem close_failure_retains_entry :
    (∀ (pid : PollId) (n : Nat) (s : BotState) (e : PollEntry),
      lookupPoll s.poll_data pid = some e → 15 ≤ n →
      memPoll (receive_poll_update pid n false s).1.poll_data pid = true ∧
      Effect.stopPoll e.chat_id e.message_id ∈
        (receive_poll_update pid n false s).2) ∧
    (∀ (jc : Int) (jm : Nat) (pid : PollId) (s : BotState),
      memPoll s.poll_data pid = true →
      auto_close_poll jc jm pid false s = (s, [Effect.stopPoll jc jm])) := by
  constructor
  · intro pid n s e hl hn
    rw [receive_high_fail pid n s e hl hn]
    exact ⟨memPoll_setPoll_self _ _ _, by simp⟩
  · intro jc jm pid s h
    exact auto_close_present_fail jc jm pid s h

/-- Witness for C8: a failing stop on each closure path for a concrete
registered poll keeps its entry. -/
theorem close_failure_retains_entry_witness :
    (memPoll (receive_poll_update 1 16 false
      ⟨[(1, ⟨100, 50, 3⟩)],
       [⟨JobKind.close, 1⟩, ⟨JobKind.forward, 1⟩]⟩).1.poll_data 1 = true ∧
     Effect.stopPoll (100 : Int) (50 : Nat) ∈
       (receive_poll_update 1 16 false
         ⟨[(1, ⟨100, 50, 3⟩)],
          [⟨JobKind.close, 1⟩, ⟨JobKind.forward, 1⟩]⟩).2) ∧
    auto_close_poll 100 50 1 false ⟨[(1, ⟨100, 50, 9⟩)], []⟩ =
      (⟨[(1, ⟨100, 50, 9⟩)], []⟩, [Effect.stopPoll 100 50]) :=
  ⟨close_failure_retains_entry.1 1 16
      ⟨[(1, ⟨100, 50, 3⟩)], [⟨JobKind.close, 1⟩, ⟨JobKind.forward, 1⟩]⟩
      ⟨100, 50, 3⟩ (by decide) (by decide),
   close_failure_retains_entry.2 100 50 1
      ⟨[(1, ⟨100, 50, 9⟩)], []⟩ (by decide)⟩

/-- C10: in the early-closure path both jobs are cancelled before the
`stop_poll` call, so when that call fails the entry remains with zero
pending jobs; and from any state with zero pending jobs for the poll, the
only deliverable event that removes the entry is a vote update whose
count meets the threshold and whose stop succeeds. -/
theorem early_close_failure_vote_only_closure :
    (∀ (pid : PollId) (n : Nat) (s : BotState) (e : PollEntry),
      lookupPoll s.poll_data pid = some e → 15 ≤ n →
      memPoll (receive_poll_update pid n false s).1.poll_data pid = true ∧
      hasJob (receive_poll_update pid n false s).1.jobs
        JobKind.close pid = false ∧
      hasJob (receive_poll_update pid n false s).1.jobs
        JobKind.forward pid = false ∧
      Effect.stopPoll e.chat_id e.message_id ∈
        (receive_poll_update pid n false s).2) ∧
    (∀ (cfg : TraceCfg) (s : BotState) (ev : Event),
      hasJob s.jobs JobKind.close cfg.pid = false →
      hasJob s.jobs JobKind.forward cfg.pid = false →
      enabled cfg s ev = true →
      memPoll (stepEvent cfg s ev).1.poll_data cfg.pid = false →
      memPoll s.poll_data cfg.pid = false ∨
        ∃ m, ev = Event.voteChanged m true ∧ 15 ≤ m) := by
  constructor
  · intro pid n s e hl hn
    rw [receive_high_fail pid n s e hl hn]
    exact ⟨memPoll_setPoll_self _ _ _, hasJob_cancelJobs _ _ _,
      hasJob_cancelJobs _ _ _, by simp⟩
  · intro cfg s ev hclose hfwd hen hafter
    cases ev with
    | voteChanged m ok =>
        cases hl : lookupPoll s.poll_data cfg.pid with
        | none => exact Or.inl (by simp [memPoll, hl])
        | some e =>
            right
            by_cases hm : 15 ≤ m
            · cases ok
              · exfalso
                rw [show stepEvent cfg s (Event.voteChanged m false) =
                      receive_poll_update cfg.pid m false s from rfl,
                    receive_high_fail cfg.pid m s e hl hm] at hafter
                rw [memPoll_setPoll_self] at hafter
                cases hafter
              · exact ⟨m, rfl, hm⟩
            · exfalso
              have hm' : m < 15 := Nat.lt_of_not_le hm
              rw [show stepEvent cfg s (Event.voteChanged m ok) =
                    receive_poll_update cfg.pid m ok s from rfl,
                  receive_low cfg.pid m ok s e hl hm'] at hafter
              rw [memPoll_setPoll_self] at hafter
              cases hafter
    | closeFired ok =>
        exfalso
        rw [show enabled cfg s (Event.closeFired ok) =
              hasJob s.jobs JobKind.close cfg.pid from rfl, hclose] at hen
        cases hen
    | escalationFired fok =>
        exfalso
        rw [show enabled cfg s (Event.escalationFired fok) =
              hasJob s.jobs JobKind.forward cfg.pid from rfl, hfwd] at hen
        cases hen

/-- Witness for C10: concrete failed early closure leaves the entry with
no pending jobs, and afterwards a deliverable event removing the entry
must be a threshold vote update with a successful stop. -/
theorem early_close_failure_vote_only_closure_witness :
    (memPoll (receive_poll_update 1 17 false
      ⟨[(1, ⟨100, 50, 3⟩)],
       [⟨JobKind.close, 1⟩, ⟨JobKind.forward, 1⟩]⟩).1.poll_data 1 = true ∧
     hasJob (receive_poll_update 1 17 false
       ⟨[(1, ⟨100, 50, 3⟩)],
        [⟨JobKind.close, 1⟩, ⟨JobKind.forward, 1⟩]⟩).1.jobs
       JobKind.close 1 = false ∧
     hasJob (receive_poll_update 1 17 false
       ⟨[(1, ⟨100, 50, 3⟩)],
        [⟨JobKind.close, 1⟩, ⟨JobKind.forward, 1⟩]⟩).1.jobs
       JobKind.forward 1 = false ∧
     Effect.stopPoll (100 : Int) (50 : Nat) ∈
       (receive_poll_update 1 17 false
         ⟨[(1, ⟨100, 50, 3⟩)],
          [⟨JobKind.close, 1⟩, ⟨JobKind.forward, 1⟩]⟩).2) ∧
    (memPoll (stepEvent ⟨1, 100, 50, 7⟩ ⟨[(1, ⟨100, 50, 17⟩)], []⟩
        (Event.voteChanged 18 true)).1.poll_data 1 = false →
      memPoll (⟨[(1, ⟨100, 50, 17⟩)], []⟩ : BotState).poll_data 1 = false ∨
        ∃ m, Event.voteChanged 18 true = Event.voteChanged m true ∧ 15 ≤ m) :=
  ⟨early_close_failure_vote_only_closure.1 1 17
      ⟨[(1, ⟨100, 50, 3⟩)], [⟨JobKind.close, 1⟩, ⟨JobKind.forward, 1⟩]⟩
      ⟨100, 50, 3⟩ (by decide) (by decide),
   fun h => early_close_failure_vote_only_closure.2 ⟨1, 100, 50, 7⟩
      ⟨[(1, ⟨100, 50, 17⟩)], []⟩ (Event.voteChanged 18 true)
      (by decide) (by decide) (by decide) h⟩

/-- C4 counterexample: the escalation handler does not guard against a
second firing — calling `check_and_forward_poll` twice for the same open
below-threshold poll performs the forward collaborator call on both
invocations, so the second call is not a no-op. -/
theorem escalation_fired_twice_forwards_twice :
    Effect.forwardMessage 7 100 50 ∈
      (check_and_forward_poll 7 100 50 1 true
        ⟨[(1, ⟨100, 50, 3⟩)], [⟨JobKind.close, 1⟩, ⟨JobKind.forward, 1⟩]⟩).2 ∧
    Effect.forwardMessage 7 100 50 ∈
      (check_and_forward_poll 7 100 50 1 true
        (check_and_forward_poll 7 100 50 1 true
          ⟨[(1, ⟨100, 50, 3⟩)],
           [⟨JobKind.close, 1⟩, ⟨JobKind.forward, 1⟩]⟩).1).2 := by
  decide

/-- C4 amended: calling `auto_close_poll` twice for the same poll id,
where the first call's stop succeeds, has the effect of a single call —
the second call is a no-op (no collaborator call, no registry change);
calling `check_and_forward_poll` twice never changes the registry, but
the second call repeats the forward collaborator call while the poll
remains open below threshold, so it is idempotent only on state, not on
effects. -/
theorem close_idempotent_escalation_state_invariant :
    (∀ (jc : Int) (jm : Nat) (pid : PollId) (ok2 : Bool) (s : BotState),
      auto_close_poll jc jm pid ok2 (auto_close_poll jc jm pid true s).1 =
        ((auto_close_poll jc jm pid true s).1, [])) ∧
    (∀ (fwd jc : Int) (jm : Nat) (pid : PollId) (fok : Bool) (s : BotState),
      (check_and_forward_poll fwd jc jm pid fok s).1 = s) := by
  constructor
  · intro jc jm pid ok2 s
    cases hm : memPoll s.poll_data pid
    · rw [auto_close_absent jc jm pid true s hm]
      exact auto_close_absent jc jm pid ok2 s hm
    · rw [auto_close_present_ok jc jm pid s hm]
      exact auto_close_absent jc jm pid ok2 _ (memPoll_delPoll_self _ _)
  · intro fwd jc jm pid fok s
    exact check_and_forward_state fwd jc jm pid fok s

/-- C2 counterexample: creating a poll mutates the registry (it goes from
empty to holding the new entry) yet emits no Durable Store save, and the
vote update that closes the poll emits none either — no mutation performs
a synchronous save. -/
theorem registry_mutation_without_save :
    (create_and_send_poll 100 1 50 ⟨[], []⟩).1.poll_data ≠ [] ∧
    countSaves (create_and_send_poll 100 1 50 ⟨[], []⟩).2 = 0 ∧
    countSaves (receive_poll_update 1 20 true
      (create_and_send_poll 100 1 50 ⟨[], []⟩).1).2 = 0 ∧
    countSaves (auto_close_poll 100 50 1 true
      (create_and_send_poll 100 1 50 ⟨[], []⟩).1).2 = 0 := by
  decide

/-- C2 amended: the program has no Durable Store at all — every registry
mutation (poll creation, a vote update causing closure, and the
task-triggered closure) returns without performing any save; `poll_data`
is in-memory only. -/
theorem registry_mutations_never_save :
    (∀ (c : Int) (pid : PollId) (m : Nat) (s : BotState),
      countSaves (create_and_send_poll c pid m s).2 = 0) ∧
    (∀ (pid : PollId) (n : Nat) (ok : Bool) (s : BotState),
      countSaves (receive_poll_update pid n ok s).2 = 0) ∧
    (∀ (jc : Int) (jm : Nat) (pid : PollId) (ok : Bool) (s : BotState),
      countSaves (auto_close_poll jc jm pid ok s).2 = 0) := by
  refine ⟨fun c pid m s => rfl, ?_, ?_⟩
  · intro pid n ok s
    cases hm : memPoll s.poll_data pid
    · rw [receive_absent pid n ok s hm]
      rfl
    · cases hl : lookupPoll s.poll_data pid with
      | none => simp [memPoll, hl] at hm
      | some e =>
          by_cases hn : 15 ≤ n
          · cases ok
            · rw [receive_high_fail pid n s e hl hn]
              rfl
            · rw [receive_high_ok pid n s e hl hn]
              rfl
          · rw [receive_low pid n ok s e hl (Nat.lt_of_not_le hn)]
            rfl
  · intro jc jm pid ok s
    cases hm : memPoll s.poll_data pid
    · rw [auto_close_absent jc jm pid ok s hm]
      rfl
    · cases ok
      · rw [auto_close_present_fail jc jm pid s hm]
        rfl
      · rw [auto_close_present_ok jc jm pid s hm]
        rfl

/-- C7: starting from a freshly created poll, along any deliverable
sequence of vote updates and job firings in which every `stop_poll`
attempt succeeds, at most one of the two closure paths ever calls
`stop_poll` — and if the close job fires in the sequence, exactly one
`stop_poll` call is made. -/
theorem exactly_one_close_call (cfg : TraceCfg) (tr : List Event)
    (hv : validTrace cfg (initState cfg) tr = true)
    (hok : stopsOk tr = true) :
    countStops (runTrace cfg (initState cfg) tr).2 ≤ 1 ∧
    (hasCloseFired tr = true →
      countStops (runTrace cfg (initState cfg) tr).2 = 1) := by
  have hinv : CloseJobInv cfg (initState cfg) := by
    intro _
    exact memPoll_setPoll_self _ _ _
  have h := run_bound cfg tr (initState cfg) hinv hv hok
  have hmem : memPoll (initState cfg).poll_data cfg.pid = true :=
    memPoll_setPoll_self _ _ _
  rw [hmem] at h
  simp only [if_true] at h
  exact ⟨h.1, fun hcf => le_antisymm h.1 (h.2 hcf)⟩

/-- Witness for C7: a concrete poll that receives 9 votes and then has
its close job fire gets exactly one `stop_poll` call. -/
theorem exactly_one_close_call_witness :
    countStops (runTrace ⟨1, 100, 50, 7⟩ (initState ⟨1, 100, 50, 7⟩)
      [Event.voteChanged 9 true, Event.closeFired true]).2 ≤ 1 ∧
    (hasCloseFired [Event.voteChanged 9 true, Event.closeFired true] = true →
      countStops (runTrace ⟨1, 100, 50, 7⟩ (initState ⟨1, 100, 50, 7⟩)
        [Event.voteChanged 9 true, Event.closeFired true]).2 = 1) :=
  exactly_one_close_call ⟨1, 100, 50, 7⟩
    [Event.voteChanged 9 true, Event.closeFired true] (by decide) (by decide)

end Sofive
